import Mathlib

/-!
Verification of the usage-metering and quota-enforcement subsystem of the
acctos-ai repository (apps/api/src/utils/usageLimits.ts,
apps/api/src/routes/documentUsage.ts, and the billing routes file).

Modelling conventions:
* Dates that only ever enter `<` / `>=` comparisons at day granularity
  (`lastResetAt`, event timestamps normalized by `setHours(0,0,0,0)`,
  aggregate dates, the computed period start) are embedded as `Int` day
  indices.  `d.setHours(0,0,0,0)` on an already day-normalized value is the
  identity, so it does not appear.
* The calendar arithmetic of `getExpectedResetDate` / `getNextResetDate`
  is modelled separately over (year, monthIndex, day) triples with the
  JavaScript `Date` constructor's month-rollover semantics.
* The relational store is a record of association lists; the Prisma unique
  constraint on (customerId, idempotencyKey) is the membership test that
  decides the duplicate branch, exactly as the route treats the P2002 error.
* Axios calls to Make.com are an environment: a scenario list per tenant and
  success oracles for the per-scenario stop/start requests.  Invocations of
  `pauseAllScenarios` / `resumeAllScenarios` and of the fire-and-forget
  limit check are counted in the state so that "no external call happened"
  is expressible.
* `migrated : Bool` models whether the quota columns added by the pending
  DB migration exist; when it is false every Prisma query selecting or
  updating those columns throws, which the engine functions catch.
-/

/-- A Make.com scenario as returned by the scenarios listing. -/
structure Scenario where
  id : String
  name : String
deriving DecidableEq, Repr

/-- The tenant row fields used by the quota subsystem.  Nullable Prisma
columns are `Option`; `subscriptionActive` stands for
`subscription?.status === 'active'` of the separate subscription row. -/
structure Tenant where
  pagesLimit : Option Int
  rowsLimit : Option Int
  addonPagesLimit : Option Int
  addonRowsLimit : Option Int
  scenariosPaused : Bool
  lastResetAt : Option Int
  makeApiKey : Option String
  subscriptionActive : Bool
deriving DecidableEq, Repr

/-- A raw DocumentUsageEvent row.  `day` is the timestamp normalized to
midnight (day granularity). -/
structure UsageEvent where
  customerId : String
  idempotencyKey : String
  pagesSpent : Int
  rowsUsed : Int
  day : Int
deriving DecidableEq, Repr

/-- A DocumentUsageAggregate row (one per tenant per calendar day). -/
structure Agg where
  pagesSpent : Int
  rowsUsed : Int
  eventCount : Int
deriving DecidableEq, Repr

/-- The store plus an effect ledger.  `pauseAllCalls`, `resumeAllCalls` and
`limitChecks` count invocations of `pauseAllScenarios`,
`resumeAllScenarios` and `checkAndPauseIfNeeded` respectively. -/
structure St where
  tenants : List (String × Tenant)
  events : List UsageEvent
  aggs : List ((String × Int) × Agg)
  migrated : Bool
  pauseAllCalls : Nat
  resumeAllCalls : Nat
  limitChecks : Nat
deriving DecidableEq, Repr

/-- The external world: scenarios fetched per tenant (after the silent
org/folder resolution chain of `fetchScenarios`), success oracles for the
per-scenario stop/start HTTP calls, and the value of
`getExpectedResetDate()` for "now" as a day index. -/
structure Env where
  scenariosOf : String → List Scenario
  stopOk : String → Bool
  startOk : String → Bool
  expectedResetDay : Int

/-- prisma.tenant.findUnique on id. -/
def findTenant (st : St) (tid : String) : Option Tenant :=
  (st.tenants.find? (fun kv => kv.1 = tid)).map (fun kv => kv.2)

/-- prisma.tenant.update on id (no-op when the id is absent). -/
def updateTenant (st : St) (tid : String) (f : Tenant → Tenant) : St :=
  { st with tenants := st.tenants.map (fun kv => if kv.1 = tid then (kv.1, f kv.2) else kv) }

/-- Lookup of the daily aggregate row for (customerId, date). -/
def lookupAgg (st : St) (cid : String) (day : Int) : Option Agg :=
  (st.aggs.find? (fun kv => kv.1.1 = cid ∧ kv.1.2 = day)).map (fun kv => kv.2)

/-- prisma.documentUsageAggregate.upsert: create with the event's values and
count 1, or atomically increment pagesSpent / rowsUsed / eventCount. -/
def upsertAgg (st : St) (cid : String) (day : Int) (p r : Int) : St :=
  match lookupAgg st cid day with
  | none => { st with aggs := st.aggs ++ [((cid, day), ⟨p, r, 1⟩)] }
  | some _ =>
      { st with aggs := st.aggs.map (fun kv =>
          if kv.1.1 = cid ∧ kv.1.2 = day then
            (kv.1, ⟨kv.2.pagesSpent + p, kv.2.rowsUsed + r, kv.2.eventCount + 1⟩)
          else kv) }

/-- Whether an event with this (customerId, idempotencyKey) is stored: the
unique-constraint check behind the P2002 duplicate signal. -/
def eventStored (st : St) (cid k : String) : Bool :=
  st.events.any (fun e => e.customerId = cid ∧ e.idempotencyKey = k)

/-- getCurrentPeriodUsage: sums pagesSpent and rowsUsed over aggregate rows
with `customerId = tenantId` and `date >= periodStart`. -/
def getCurrentPeriodUsage (st : St) (tid : String) (periodStart : Int) : Int × Int :=
  st.aggs.foldl (fun acc kv =>
    if kv.1.1 = tid ∧ periodStart ≤ kv.1.2 then
      (acc.1 + kv.2.pagesSpent, acc.2 + kv.2.rowsUsed)
    else acc) (0, 0)

/-- fetchScenarios: empty when the tenant is unknown or has no stored API
key; otherwise the environment's scenario list (org/folder resolution and
HTTP failures inside it already collapse to an empty list there). -/
def fetchScenarios (env : Env) (st : St) (tid : String) : List Scenario :=
  match findTenant st tid with
  | none => []
  | some t => match t.makeApiKey with
    | none => []
    | some _ => env.scenariosOf tid

/-- The per-scenario loop of pauseAllScenarios / resumeAllScenarios: one
stop/start call per scenario, a failure increments `failed` and does not
abort the loop. -/
def scenarioLoop (ok : String → Bool) : List Scenario → Nat × Nat
  | [] => (0, 0)
  | s :: rest =>
      let acc := scenarioLoop ok rest
      if ok s.id then (acc.1 + 1, acc.2) else (acc.1, acc.2 + 1)

/-- pauseAllScenarios: stop every fetched scenario, then set the
scenariosPaused flag only when at least one stop succeeded (the flag write
itself is skipped when the migration is pending). -/
def pauseAllScenarios (env : Env) (st : St) (tid : String) : (Nat × Nat) × St :=
  let st := { st with pauseAllCalls := st.pauseAllCalls + 1 }
  match findTenant st tid with
  | none => ((0, 0), st)
  | some t => match t.makeApiKey with
    | none => ((0, 0), st)
    | some _ =>
        let counts := scenarioLoop env.stopOk (fetchScenarios env st tid)
        let st1 :=
          if 0 < counts.1 then
            if st.migrated then updateTenant st tid (fun t => { t with scenariosPaused := true })
            else st
          else st
        (counts, st1)

/-- resumeAllScenarios: start every fetched scenario, then clear the
scenariosPaused flag only when at least one start succeeded (the flag write
itself is skipped when the migration is pending). -/
def resumeAllScenarios (env : Env) (st : St) (tid : String) : (Nat × Nat) × St :=
  let st := { st with resumeAllCalls := st.resumeAllCalls + 1 }
  match findTenant st tid with
  | none => ((0, 0), st)
  | some t => match t.makeApiKey with
    | none => ((0, 0), st)
    | some _ =>
        let counts := scenarioLoop env.startOk (fetchScenarios env st tid)
        let st1 :=
          if 0 < counts.1 then
            if st.migrated then updateTenant st tid (fun t => { t with scenariosPaused := false })
            else st
          else st
        (counts, st1)

/-- applyMonthlyResetIfNeeded: when the period rolled over, zero both add-on
limits, set lastResetAt to the expected reset, clear the paused flag for
active subscribers, and follow up with an external resume for them.  All DB
errors (migration pending) are caught and yield `false`. -/
def applyMonthlyResetIfNeeded (env : Env) (st : St) (tid : String) : Bool × St :=
  if ¬ st.migrated then (false, st)
  else match findTenant st tid with
  | none => (false, st)
  | some tenant =>
      let needsReset := tenant.lastResetAt.isNone ∨
        (tenant.lastResetAt.getD 0) < env.expectedResetDay
      if ¬ needsReset then (false, st)
      else
        let isSubscribed := tenant.subscriptionActive
        let autoResume := isSubscribed ∧ tenant.scenariosPaused
        let st1 :=
          if autoResume then
            updateTenant st tid (fun t =>
              { t with
                addonPagesLimit := some 0
                addonRowsLimit := some 0
                lastResetAt := some env.expectedResetDay
                scenariosPaused := false })
          else
            updateTenant st tid (fun t =>
              { t with
                addonPagesLimit := some 0
                addonRowsLimit := some 0
                lastResetAt := some env.expectedResetDay })
        let st2 := if autoResume then (resumeAllScenarios env st1 tid).2 else st1
        (true, st2)

/-- The period-start expression repeated by the engine and the status
route: the tenant's lastResetAt (midnight-normalized, the identity at day
granularity) when set, else the computed current period start. -/
def periodStartOf (env : Env) (tenant : Tenant) : Int :=
  match tenant.lastResetAt with
  | some d => d
  | none => env.expectedResetDay

/-- checkAndResumeIfPossible: if currently paused and current-period usage is
strictly under both total limits, resume all scenarios.  DB errors are
caught and yield `false`. -/
def checkAndResumeIfPossible (env : Env) (st : St) (tid : String) : Bool × St :=
  if ¬ st.migrated then (false, st)
  else match findTenant st tid with
  | none => (false, st)
  | some tenant =>
      if ¬ tenant.scenariosPaused then (false, st)
      else
        let usage := getCurrentPeriodUsage st tid (periodStartOf env tenant)
        let totalPages := tenant.pagesLimit.getD 5000 + tenant.addonPagesLimit.getD 0
        let totalRows := tenant.rowsLimit.getD 5000 + tenant.addonRowsLimit.getD 0
        if usage.1 < totalPages ∧ usage.2 < totalRows then
          (true, (resumeAllScenarios env st tid).2)
        else (false, st)

/-- checkAndPauseIfNeeded: lazily apply the monthly reset, then pause all
scenarios when current-period usage reaches either total limit and the
tenant is not already paused.  DB errors are caught and yield `false`. -/
def checkAndPauseIfNeeded (env : Env) (st : St) (tid : String) : Bool × St :=
  let st := { st with limitChecks := st.limitChecks + 1 }
  if ¬ st.migrated then (false, st)
  else
    let st0 := (applyMonthlyResetIfNeeded env st tid).2
    match findTenant st0 tid with
    | none => (false, st0)
    | some tenant =>
        let usage := getCurrentPeriodUsage st0 tid (periodStartOf env tenant)
        let totalPages := tenant.pagesLimit.getD 5000 + tenant.addonPagesLimit.getD 0
        let totalRows := tenant.rowsLimit.getD 5000 + tenant.addonRowsLimit.getD 0
        let exceeded : Bool := totalPages ≤ usage.1 ∨ totalRows ≤ usage.2
        if exceeded ∧ ¬ tenant.scenariosPaused then
          (true, (pauseAllScenarios env st0 tid).2)
        else (false, st0)

/-- Outcome of POST /api/usage/document, tagged with the HTTP status it is
sent with. -/
inductive IngestResult
  | created (eventId : Nat)
  | duplicate
  | notFound
  | badRequest
deriving DecidableEq, Repr

/-- HTTP status code of an ingestion outcome. -/
def IngestResult.httpStatus : IngestResult → Nat
  | .created _ => 201
  | .duplicate => 200
  | .notFound => 404
  | .badRequest => 400

/-- POST /api/usage/document: validate, verify the tenant, insert the raw
event (a unique-constraint hit is the duplicate branch: HTTP 200, no
aggregate update, no limit check), upsert the daily aggregate, then fire
the limit check and answer 201 with the new event id. -/
def ingest (env : Env) (st : St) (cid k : String) (p r day : Int) :
    IngestResult × St :=
  if p < 0 ∨ r < 0 then (.badRequest, st)
  else match findTenant st cid with
  | none => (.notFound, st)
  | some _ =>
      if eventStored st cid k then (.duplicate, st)
      else
        let st1 := { st with events := st.events ++ [⟨cid, k, p, r, day⟩] }
        let st2 := upsertAgg st1 cid day p r
        let st3 := (checkAndPauseIfNeeded env st2 cid).2
        (.created st.events.length, st3)

/-- A (possibly signature-verified) Stripe event as seen by the webhook
route: its type and the checkout-session metadata fields.  `none` models an
absent field, `some ""` an empty string (falsy in the route's guard);
`addonQuantity` is the number `parseInt` produced, absent metadata giving
`none` (the route's `: 0` branch). -/
structure StripeEvent where
  type : String
  tenantId : Option String
  addonType : Option String
  addonQuantity : Option Int
deriving DecidableEq, Repr

/-- JavaScript truthiness of an optional string. -/
def truthyS : Option String → Bool
  | none => false
  | some s => s ≠ ""

/-- POST /v1/billing/stripe-webhook on a verified event.  Returns (HTTP
response acknowledged receipt, new state, checkAndResumeIfPossible was
invoked).  On checkout.session.completed with truthy tenantId and addonType
and positive quantity: increment addonPagesLimit when addonType is
"pages", otherwise addonRowsLimit, then run the resume check.  Anything
else is logged and ignored; the response is always `{received: true}`. -/
def stripeWebhook (env : Env) (st : St) (ev : StripeEvent) : Bool × St × Bool :=
  if ev.type = "checkout.session.completed" then
    let qty := ev.addonQuantity.getD 0
    if truthyS ev.tenantId ∧ truthyS ev.addonType ∧ 0 < qty then
      let tid := ev.tenantId.getD ""
      let st1 :=
        if ev.addonType = some "pages" then
          updateTenant st tid (fun t =>
            { t with addonPagesLimit := some (t.addonPagesLimit.getD 0 + qty) })
        else
          updateTenant st tid (fun t =>
            { t with addonRowsLimit := some (t.addonRowsLimit.getD 0 + qty) })
      (true, (checkAndResumeIfPossible env st1 tid).2, true)
    else (true, st, false)
  else (true, st, false)

/-- The response body of GET /v1/billing/usage-status (the fields the
claims mention). -/
structure UsageStatusResp where
  currentPages : Int
  currentRows : Int
  pagesLimit : Int
  rowsLimit : Int
  addonPagesLimit : Int
  addonRowsLimit : Int
  addonPagesUsed : Int
  addonRowsUsed : Int
  totalPagesLimit : Int
  totalRowsLimit : Int
  scenariosPaused : Bool
deriving DecidableEq, Repr

/-- GET /v1/billing/usage-status: lazily apply the monthly reset, load the
tenant, one-time-upgrade tenants still on the old 1000 default to 5000
(both base limits at most 1000), then report usage against limits.  `none`
is the error path (unknown tenant, or the quota columns are missing and the
tenant read throws out of the route). -/
def usageStatus (env : Env) (st : St) (tid : String) :
    Option UsageStatusResp × St :=
  let st := (applyMonthlyResetIfNeeded env st tid).2
  if ¬ st.migrated then (none, st)
  else match findTenant st tid with
  | none => (none, st)
  | some tenant =>
      let upgrade := (tenant.pagesLimit.getD 0) ≤ 1000 ∧ (tenant.rowsLimit.getD 0) ≤ 1000
      let st1 :=
        if upgrade then
          updateTenant st tid (fun t =>
            { t with pagesLimit := some 5000, rowsLimit := some 5000 })
        else st
      let tenant1 :=
        if upgrade then
          { tenant with pagesLimit := some 5000, rowsLimit := some 5000 }
        else tenant
      let usage := getCurrentPeriodUsage st1 tid (periodStartOf env tenant1)
      let pagesLimit := tenant1.pagesLimit.getD 5000
      let rowsLimit := tenant1.rowsLimit.getD 5000
      let addonPages := tenant1.addonPagesLimit.getD 0
      let addonRows := tenant1.addonRowsLimit.getD 0
      (some
        { currentPages := usage.1
          currentRows := usage.2
          pagesLimit := pagesLimit
          rowsLimit := rowsLimit
          addonPagesLimit := addonPages
          addonRowsLimit := addonRows
          addonPagesUsed := max 0 (usage.1 - pagesLimit)
          addonRowsUsed := max 0 (usage.2 - rowsLimit)
          totalPagesLimit := pagesLimit + addonPages
          totalRowsLimit := rowsLimit + addonRows
          scenariosPaused := tenant1.scenariosPaused }, st1)

/-- A calendar date in JavaScript `Date` coordinates: `month` is the
0-based month index. -/
structure SimpleDate where
  year : Int
  month : Int
  day : Int
deriving DecidableEq, Repr

/-- The JavaScript `new Date(year, month, day, 0, 0, 0)` constructor's
month normalization: an out-of-range month index rolls the year by
`floor(month / 12)`.  Since the divisor 12 is positive, floor division
coincides with Euclidean division. -/
def mkDate (year month : Int) (day : Int) : SimpleDate :=
  ⟨year + month / 12, month % 12, day⟩

/-- getExpectedResetDate: the 5th of the current month when the day has
reached 5, else the 5th of the previous month. -/
def getExpectedResetDate (now : SimpleDate) : SimpleDate :=
  if 5 ≤ now.day then mkDate now.year now.month 5
  else mkDate now.year (now.month - 1) 5

/-- getNextResetDate: the 5th of the next month when the day has reached 5,
else the 5th of the current month. -/
def getNextResetDate (now : SimpleDate) : SimpleDate :=
  if 5 ≤ now.day then mkDate now.year (now.month + 1) 5
  else mkDate now.year now.month 5

/-- One ingestion request body (the fields the daily aggregate sums). -/
structure IngestItem where
  key : String
  pages : Int
  rows : Int
deriving DecidableEq, Repr

/-- A sequence of ingestion calls for one tenant on one day. -/
def ingestAll (env : Env) (cid : String) (day : Int) (items : List IngestItem) (st : St) : St :=
  items.foldl (fun s it => (ingest env s cid it.key it.pages it.rows day).2) st

/-- The parts of the store that the scenario and quota functions never
touch: raw events, aggregate rows, the migration flag, and which tenant
ids exist. -/
def SameUsage (st st' : St) : Prop :=
  st'.events = st.events ∧ st'.aggs = st.aggs ∧ st'.migrated = st.migrated ∧
  ∀ tid, (findTenant st' tid).isSome = (findTenant st tid).isSome

/-- The effect one upsert has on the targeted aggregate row. -/
def bumpAgg : Option Agg → Int → Int → Agg
  | none, p, r => ⟨p, r, 1⟩
  | some a, p, r => ⟨a.pagesSpent + p, a.rowsUsed + r, a.eventCount + 1⟩

/-- The four limit columns of a tenant row, for stating that an operation
leaves them unchanged. -/
def Tenant.limits (t : Tenant) : Option Int × Option Int × Option Int × Option Int :=
  (t.pagesLimit, t.rowsLimit, t.addonPagesLimit, t.addonRowsLimit)

/-! ## Concrete fixtures used by witnesses and counterexamples -/

/-- Environment with no scenarios and period start at day 0. -/
def envA : Env := ⟨fun _ => [], fun _ => true, fun _ => true, 0⟩

/-- Environment with three scenarios of which the stop/start call fails
for the third. -/
def envC : Env :=
  ⟨fun _ => [⟨"s1", "a"⟩, ⟨"s2", "b"⟩, ⟨"s3", "c"⟩],
   fun i => i != "s3", fun i => i != "s3", 0⟩

/-- Environment with three scenarios whose stop/start calls all fail. -/
def envF : Env :=
  ⟨fun _ => [⟨"s1", "a"⟩, ⟨"s2", "b"⟩, ⟨"s3", "c"⟩],
   fun _ => false, fun _ => false, 0⟩

/-- Environment whose period start is day 5 (a rolled-over period). -/
def envE : Env := ⟨fun _ => [], fun _ => true, fun _ => true, 5⟩

/-- A fresh tenant on the 5000 defaults, reset at day 0, no Make key. -/
def tW : Tenant := ⟨some 5000, some 5000, some 0, some 0, false, some 0, none, false⟩

/-- Store with the single tenant "t1" (migrated schema, no usage yet). -/
def stW : St := ⟨[("t1", tW)], [], [], true, 0, 0, 0⟩

/-- A tenant with base limit 5000, no add-ons, not paused, with Make key. -/
def tA : Tenant :=
  ⟨some 5000, some 5000, some 0, some 0, false, some 0, some "key", false⟩

/-- Store where tenant "t1" has used exactly 5000 pages this period. -/
def stA5000 : St := ⟨[("t1", tA)], [], [(("t1", 0), ⟨5000, 0, 1⟩)], true, 0, 0, 0⟩

/-- Store where tenant "t1" has used 4999 pages this period. -/
def stA4999 : St := ⟨[("t1", tA)], [], [(("t1", 0), ⟨4999, 0, 1⟩)], true, 0, 0, 0⟩

/-- Store with tenant "t1" holding a Make key (for the loop witnesses). -/
def stC : St := ⟨[("t1", tA)], [], [], true, 0, 0, 0⟩

/-- A paused tenant at base 5000 with a 2000-page add-on applied. -/
def tB : Tenant :=
  ⟨some 5000, some 5000, some 2000, some 0, true, some 0, some "key", false⟩

/-- Store where the paused tenant "t1" has used 6000 pages. -/
def stB6000 : St := ⟨[("t1", tB)], [], [(("t1", 0), ⟨6000, 0, 1⟩)], true, 0, 0, 0⟩

/-- Store with tenant "t1" last reset at day 0 (due for envE's period). -/
def stE0 : St := ⟨[("t1", tW)], [], [], true, 0, 0, 0⟩

/-- Store whose schema migration is pending (quota columns missing). -/
def stD : St := ⟨[("t1", tW)], [], [], false, 0, 0, 0⟩

/-- A tenant still on the old 1000 base defaults. -/
def tLow : Tenant :=
  ⟨some 1000, some 1000, some 0, some 0, false, some 0, none, false⟩

/-- Store with the old-default tenant "t1". -/
def stLow : St := ⟨[("t1", tLow)], [], [], true, 0, 0, 0⟩

/-! ## Store lemmas -/

/-- Updating a tenant id and then reading that id reads the updated row. -/
theorem find?_update_self (l : List (String × Tenant)) (tid : String) (f : Tenant → Tenant) :
    (((l.map (fun kv => if kv.1 = tid then (kv.1, f kv.2) else kv)).find?
        (fun kv => kv.1 = tid)).map (fun kv => kv.2))
      = ((l.find? (fun kv => kv.1 = tid)).map (fun kv => kv.2)).map f := by
  induction l with
  | nil => rfl
  | cons kv rest ih =>
      simp only [List.map_cons]
      by_cases h : kv.1 = tid
      · rw [List.find?_cons_of_pos _ (by simp [h]), List.find?_cons_of_pos _ (by simp [h])]
        simp [h]
      · rw [List.find?_cons_of_neg _ (by simp [h]), List.find?_cons_of_neg _ (by simp [h])]
        exact ih

/-- prisma.tenant.update followed by findUnique on the same id. -/
theorem findTenant_updateTenant_self (st : St) (tid : String) (f : Tenant → Tenant) :
    findTenant (updateTenant st tid f) tid = (findTenant st tid).map f := by
  simp only [findTenant, updateTenant]
  exact find?_update_self st.tenants tid f

/-- Updating a tenant never changes which ids are present. -/
theorem find?_isSome_update (l : List (String × Tenant)) (tid tid' : String) (f : Tenant → Tenant) :
    ((l.map (fun kv => if kv.1 = tid then (kv.1, f kv.2) else kv)).find?
        (fun kv => kv.1 = tid')).isSome
      = (l.find? (fun kv => kv.1 = tid')).isSome := by
  induction l with
  | nil => rfl
  | cons kv rest ih =>
      simp only [List.map_cons]
      by_cases h' : kv.1 = tid'
      · have hp : ((if kv.1 = tid then (kv.1, f kv.2) else kv).1 = tid') := by
          split <;> exact h'
        rw [List.find?_cons_of_pos _ (by simpa using hp),
          List.find?_cons_of_pos _ (by simp [h'])]
        rfl
      · have hp : ¬ ((if kv.1 = tid then (kv.1, f kv.2) else kv).1 = tid') := by
          split <;> exact h'
        rw [List.find?_cons_of_neg _ (by simpa using hp),
          List.find?_cons_of_neg _ (by simp [h'])]
        exact ih

theorem sameUsage_refl (st : St) : SameUsage st st := ⟨rfl, rfl, rfl, fun _ => rfl⟩

theorem sameUsage_trans {s1 s2 s3 : St} (h : SameUsage s1 s2) (h' : SameUsage s2 s3) :
    SameUsage s1 s3 :=
  ⟨h'.1.trans h.1, h'.2.1.trans h.2.1, h'.2.2.1.trans h.2.2.1,
    fun tid => (h'.2.2.2 tid).trans (h.2.2.2 tid)⟩

theorem sameUsage_updateTenant (st : St) (tid : String) (f : Tenant → Tenant) :
    SameUsage st (updateTenant st tid f) := by
  refine ⟨rfl, rfl, rfl, fun tid' => ?_⟩
  simp only [findTenant, updateTenant, Option.isSome_map']
  exact find?_isSome_update st.tenants tid tid' f

/-- The pause loop writes at most one tenant row: the tid's paused flag. -/
theorem pauseAllScenarios_snd (env : Env) (st : St) (tid : String) :
    (pauseAllScenarios env st tid).2 = { st with pauseAllCalls := st.pauseAllCalls + 1 } ∨
    (pauseAllScenarios env st tid).2 =
      updateTenant { st with pauseAllCalls := st.pauseAllCalls + 1 } tid
        (fun t => { t with scenariosPaused := true }) := by
  simp only [pauseAllScenarios]
  split
  · exact Or.inl rfl
  · split
    · exact Or.inl rfl
    · split
      · split
        · exact Or.inr rfl
        · exact Or.inl rfl
      · exact Or.inl rfl

/-- The resume loop writes at most one tenant row: the tid's paused flag. -/
theorem resumeAllScenarios_snd (env : Env) (st : St) (tid : String) :
    (resumeAllScenarios env st tid).2 = { st with resumeAllCalls := st.resumeAllCalls + 1 } ∨
    (resumeAllScenarios env st tid).2 =
      updateTenant { st with resumeAllCalls := st.resumeAllCalls + 1 } tid
        (fun t => { t with scenariosPaused := false }) := by
  simp only [resumeAllScenarios]
  split
  · exact Or.inl rfl
  · split
    · exact Or.inl rfl
    · split
      · split
        · exact Or.inr rfl
        · exact Or.inl rfl
      · exact Or.inl rfl

theorem sameUsage_pauseAll (env : Env) (st : St) (tid : String) :
    SameUsage st (pauseAllScenarios env st tid).2 := by
  rcases pauseAllScenarios_snd env st tid with h | h <;> rw [h]
  · exact ⟨rfl, rfl, rfl, fun _ => rfl⟩
  · exact sameUsage_trans (⟨rfl, rfl, rfl, fun _ => rfl⟩ :
      SameUsage st { st with pauseAllCalls := st.pauseAllCalls + 1 })
      (sameUsage_updateTenant _ tid _)

theorem sameUsage_resumeAll (env : Env) (st : St) (tid : String) :
    SameUsage st (resumeAllScenarios env st tid).2 := by
  rcases resumeAllScenarios_snd env st tid with h | h <;> rw [h]
  · exact ⟨rfl, rfl, rfl, fun _ => rfl⟩
  · exact sameUsage_trans (⟨rfl, rfl, rfl, fun _ => rfl⟩ :
      SameUsage st { st with resumeAllCalls := st.resumeAllCalls + 1 })
      (sameUsage_updateTenant _ tid _)

/-- The monthly reset's possible writes: nothing, the reset update, or the
reset update followed by the resume loop. -/
theorem applyMonthlyResetIfNeeded_snd (env : Env) (st : St) (tid : String) :
    (applyMonthlyResetIfNeeded env st tid).2 = st ∨
    ((applyMonthlyResetIfNeeded env st tid).2
        = updateTenant st tid (fun t =>
            { t with addonPagesLimit := some 0, addonRowsLimit := some 0,
                     lastResetAt := some env.expectedResetDay }) ∨
     (applyMonthlyResetIfNeeded env st tid).2
        = (resumeAllScenarios env
            (updateTenant st tid (fun t =>
              { t with addonPagesLimit := some 0, addonRowsLimit := some 0,
                       lastResetAt := some env.expectedResetDay, scenariosPaused := false }))
            tid).2) := by
  simp only [applyMonthlyResetIfNeeded]
  split
  · exact Or.inl rfl
  · split
    · exact Or.inl rfl
    · split
      · exact Or.inl rfl
      · split
        · exact Or.inr (Or.inr rfl)
        · exact Or.inr (Or.inl rfl)

theorem sameUsage_applyReset (env : Env) (st : St) (tid : String) :
    SameUsage st (applyMonthlyResetIfNeeded env st tid).2 := by
  rcases applyMonthlyResetIfNeeded_snd env st tid with h | h | h
  · rw [h]; exact sameUsage_refl st
  · rw [h]; exact sameUsage_updateTenant st tid _
  · rw [h]
    exact sameUsage_trans (sameUsage_updateTenant st tid _) (sameUsage_resumeAll env _ tid)

/-- The limit check's possible writes: the invocation count alone, the
monthly reset's writes, or those plus the pause loop's writes. -/
theorem checkAndPauseIfNeeded_snd (env : Env) (st : St) (tid : String) :
    (checkAndPauseIfNeeded env st tid).2
        = { st with limitChecks := st.limitChecks + 1 } ∨
    ((checkAndPauseIfNeeded env st tid).2
        = (applyMonthlyResetIfNeeded env { st with limitChecks := st.limitChecks + 1 } tid).2 ∨
     (checkAndPauseIfNeeded env st tid).2
        = (pauseAllScenarios env
            (applyMonthlyResetIfNeeded env { st with limitChecks := st.limitChecks + 1 } tid).2
            tid).2) := by
  simp only [checkAndPauseIfNeeded]
  split
  · exact Or.inl rfl
  · split
    · exact Or.inr (Or.inl rfl)
    · split
      · exact Or.inr (Or.inr rfl)
      · exact Or.inr (Or.inl rfl)

theorem sameUsage_checkPause (env : Env) (st : St) (tid : String) :
    SameUsage st (checkAndPauseIfNeeded env st tid).2 := by
  have hb : SameUsage st { st with limitChecks := st.limitChecks + 1 } :=
    ⟨rfl, rfl, rfl, fun _ => rfl⟩
  rcases checkAndPauseIfNeeded_snd env st tid with h | h | h
  · rw [h]; exact hb
  · rw [h]; exact sameUsage_trans hb (sameUsage_applyReset env _ tid)
  · rw [h]
    exact sameUsage_trans (sameUsage_trans hb (sameUsage_applyReset env _ tid))
      (sameUsage_pauseAll env _ tid)

/-- The resume check's possible writes: nothing, or the resume loop's. -/
theorem checkAndResumeIfPossible_snd (env : Env) (st : St) (tid : String) :
    (checkAndResumeIfPossible env st tid).2 = st ∨
    (checkAndResumeIfPossible env st tid).2 = (resumeAllScenarios env st tid).2 := by
  simp only [checkAndResumeIfPossible]
  split
  · exact Or.inl rfl
  · split
    · exact Or.inl rfl
    · split
      · exact Or.inl rfl
      · split
        · exact Or.inr rfl
        · exact Or.inl rfl

theorem sameUsage_checkResume (env : Env) (st : St) (tid : String) :
    SameUsage st (checkAndResumeIfPossible env st tid).2 := by
  rcases checkAndResumeIfPossible_snd env st tid with h | h <;> rw [h]
  · exact sameUsage_refl st
  · exact sameUsage_resumeAll env st tid

/-- The resume loop leaves the tid's row alone or clears its flag. -/
theorem findTenant_resumeAll (env : Env) (st : St) (tid : String) :
    findTenant (resumeAllScenarios env st tid).2 tid = findTenant st tid ∨
    findTenant (resumeAllScenarios env st tid).2 tid
      = (findTenant st tid).map (fun t => { t with scenariosPaused := false }) := by
  rcases resumeAllScenarios_snd env st tid with h | h <;> rw [h]
  · exact Or.inl rfl
  · rw [findTenant_updateTenant_self]
    exact Or.inr rfl

/-- The pause loop leaves the tid's row alone or sets its flag. -/
theorem findTenant_pauseAll (env : Env) (st : St) (tid : String) :
    findTenant (pauseAllScenarios env st tid).2 tid = findTenant st tid ∨
    findTenant (pauseAllScenarios env st tid).2 tid
      = (findTenant st tid).map (fun t => { t with scenariosPaused := true }) := by
  rcases pauseAllScenarios_snd env st tid with h | h <;> rw [h]
  · exact Or.inl rfl
  · rw [findTenant_updateTenant_self]
    exact Or.inr rfl

/-- When lastResetAt already equals or passes the expected reset, the
monthly reset is not due and the call is a no-op returning false. -/
theorem applyReset_noop (env : Env) (st : St) (tid : String) (t : Tenant) (d : Int)
    (ht : findTenant st tid = some t) (hlast : t.lastResetAt = some d)
    (hd : ¬ d < env.expectedResetDay) :
    applyMonthlyResetIfNeeded env st tid = (false, st) := by
  by_cases hm : st.migrated = true
  · simp [applyMonthlyResetIfNeeded, ht, hlast, hd, hm]
  · simp [applyMonthlyResetIfNeeded, hm]

/-! ## Aggregate and loop lemmas -/

theorem find?_agg_bump (l : List ((String × Int) × Agg)) (cid : String) (day : Int) (p r : Int) :
    ((l.map (fun kv =>
        if kv.1.1 = cid ∧ kv.1.2 = day then
          (kv.1, (⟨kv.2.pagesSpent + p, kv.2.rowsUsed + r, kv.2.eventCount + 1⟩ : Agg))
        else kv)).find? (fun kv => kv.1.1 = cid ∧ kv.1.2 = day)).map (fun kv => kv.2)
      = ((l.find? (fun kv => kv.1.1 = cid ∧ kv.1.2 = day)).map (fun kv => kv.2)).map
          (fun a => (⟨a.pagesSpent + p, a.rowsUsed + r, a.eventCount + 1⟩ : Agg)) := by
  induction l with
  | nil => rfl
  | cons kv rest ih =>
      simp only [List.map_cons]
      by_cases h : kv.1.1 = cid ∧ kv.1.2 = day
      · rw [List.find?_cons_of_pos _ (by simp [h.1, h.2]),
          List.find?_cons_of_pos _ (by simp [h.1, h.2])]
        simp [h.1, h.2]
      · rw [List.find?_cons_of_neg _ (by simp [h]), List.find?_cons_of_neg _ (by simp [h])]
        exact ih

/-- Reading the upserted (cid, day) row after the upsert. -/
theorem lookupAgg_upsertAgg_self (st : St) (cid : String) (day : Int) (p r : Int) :
    lookupAgg (upsertAgg st cid day p r) cid day
      = some (bumpAgg (lookupAgg st cid day) p r) := by
  rcases h : lookupAgg st cid day with _ | a
  · have hnone : st.aggs.find? (fun kv => kv.1.1 = cid ∧ kv.1.2 = day) = none := by
      simp only [lookupAgg] at h
      exact Option.map_eq_none'.mp h
    unfold upsertAgg
    rw [h]
    simp only [lookupAgg]
    rw [List.find?_append, hnone]
    simp [List.find?, bumpAgg]
  · have hsome : (st.aggs.find? (fun kv => kv.1.1 = cid ∧ kv.1.2 = day)).map
        (fun kv => kv.2) = some a := by
      simpa only [lookupAgg] using h
    unfold upsertAgg
    rw [h]
    simp only [lookupAgg]
    rw [find?_agg_bump, hsome]
    rfl

/-- A state whose aggs equal another state's has the same lookups. -/
theorem lookupAgg_congr {st st' : St} (h : st'.aggs = st.aggs) (cid : String) (day : Int) :
    lookupAgg st' cid day = lookupAgg st cid day := by
  simp only [lookupAgg, h]

/-- The stored marker after appending one event, same key. -/
theorem eventStored_append_self (st : St) (cid k : String) (p r day : Int) :
    eventStored { st with events := st.events ++ [⟨cid, k, p, r, day⟩] } cid k = true := by
  simp [eventStored]

/-- The stored marker after appending one event, different key. -/
theorem eventStored_append_other (st : St) (cid k k' : String) (p r day : Int)
    (hk : ¬ k = k') :
    eventStored { st with events := st.events ++ [⟨cid, k, p, r, day⟩] } cid k'
      = eventStored st cid k' := by
  simp [eventStored, List.any_append, hk]

/-- The loop counts are the partition of the scenario list by the per-call
success oracle; in particular every scenario is visited. -/
theorem scenarioLoop_counts (ok : String → Bool) (l : List Scenario) :
    scenarioLoop ok l
      = ((l.filter (fun s => ok s.id)).length, (l.filter (fun s => ! ok s.id)).length) := by
  induction l with
  | nil => rfl
  | cons s rest ih =>
      cases h : ok s.id <;> simp [scenarioLoop, ih, h]

/-! ## Ingestion evaluation lemmas -/

theorem upsertAgg_events (st : St) (cid : String) (day p r : Int) :
    (upsertAgg st cid day p r).events = st.events := by
  unfold upsertAgg; split <;> rfl

theorem upsertAgg_tenants (st : St) (cid : String) (day p r : Int) :
    (upsertAgg st cid day p r).tenants = st.tenants := by
  unfold upsertAgg; split <;> rfl

theorem findTenant_congr {st st' : St} (h : st'.tenants = st.tenants) (tid : String) :
    findTenant st' tid = findTenant st tid := by
  simp only [findTenant, h]

theorem eventStored_congr (stt : St) {st' : St} (h : st'.events = stt.events)
    (cid k : String) : eventStored st' cid k = eventStored stt cid k := by
  simp only [eventStored, h]

/-- Evaluation of an accepted (non-duplicate, valid, known-tenant) ingest
call: 201 created, event appended, aggregate upserted, limit check fired. -/
theorem ingest_accepted (env : Env) (st : St) (cid k : String) (p r day : Int)
    (hp : ¬ p < 0) (hr : ¬ r < 0)
    (ht : (findTenant st cid).isSome = true)
    (hnew : eventStored st cid k = false) :
    ingest env st cid k p r day
      = (.created st.events.length,
         (checkAndPauseIfNeeded env
            (upsertAgg { st with events := st.events ++ [⟨cid, k, p, r, day⟩] } cid day p r)
            cid).2) := by
  obtain ⟨t, ht'⟩ := Option.isSome_iff_exists.mp ht
  simp only [ingest, ht']
  rw [if_neg (not_or.mpr ⟨hp, hr⟩), if_neg (by simp [hnew])]

/-- Evaluation of a duplicate ingest call: 200 duplicate, state untouched. -/
theorem ingest_duplicate (env : Env) (st : St) (cid k : String) (p r day : Int)
    (hp : ¬ p < 0) (hr : ¬ r < 0)
    (ht : (findTenant st cid).isSome = true)
    (hdup : eventStored st cid k = true) :
    ingest env st cid k p r day = (.duplicate, st) := by
  obtain ⟨t, ht'⟩ := Option.isSome_iff_exists.mp ht
  simp only [ingest, ht']
  rw [if_neg (not_or.mpr ⟨hp, hr⟩), if_pos (by simp [hdup])]

/-- The store after an accepted ingest: appended event list, bumped
aggregate row, tenant ids intact. -/
theorem ingest_accepted_state (env : Env) (st : St) (cid k : String) (p r day : Int)
    (hp : ¬ p < 0) (hr : ¬ r < 0)
    (ht : (findTenant st cid).isSome = true)
    (hnew : eventStored st cid k = false) :
    ((ingest env st cid k p r day).2).events = st.events ++ [⟨cid, k, p, r, day⟩] ∧
    lookupAgg (ingest env st cid k p r day).2 cid day
      = some (bumpAgg (lookupAgg st cid day) p r) ∧
    ((findTenant (ingest env st cid k p r day).2 cid).isSome = true) := by
  rw [ingest_accepted env st cid k p r day hp hr ht hnew]
  have hsu := sameUsage_checkPause env
    (upsertAgg { st with events := st.events ++ [⟨cid, k, p, r, day⟩] } cid day p r) cid
  refine ⟨?_, ?_, ?_⟩
  · rw [hsu.1, upsertAgg_events]
  · rw [lookupAgg_congr hsu.2.1]
    have := lookupAgg_upsertAgg_self
      { st with events := st.events ++ [⟨cid, k, p, r, day⟩] } cid day p r
    rw [this]
    have hl : lookupAgg { st with events := st.events ++ [⟨cid, k, p, r, day⟩] } cid day
        = lookupAgg st cid day := rfl
    rw [hl]
  · rw [hsu.2.2.2 cid]
    have hft : findTenant (upsertAgg { st with events := st.events ++ [⟨cid, k, p, r, day⟩] }
        cid day p r) cid = findTenant st cid := by
      refine (findTenant_congr ?_ cid).trans (findTenant_congr rfl cid)
      exact upsertAgg_tenants _ cid day p r
    rw [hft, ht]

/-! ## C1: ingestion idempotency -/

/-- C1: for a known tenant and a fresh idempotency key, the first ingest
answers HTTP 201 created with the event id; repeating the key — with the
same or a different valid payload — answers HTTP 200 duplicate, leaves the
whole store unchanged (so no aggregate update and no quota evaluation, the
limit-check counter included), and exactly one event with that key is
stored. -/
theorem ingest_idempotent (env : Env) (st : St) (cid k : String)
    (p r day p' r' day' : Int)
    (hp : ¬ p < 0) (hr : ¬ r < 0) (hp' : ¬ p' < 0) (hr' : ¬ r' < 0)
    (ht : (findTenant st cid).isSome = true)
    (hnew : eventStored st cid k = false) :
    (ingest env st cid k p r day).1 = .created st.events.length ∧
    ((ingest env st cid k p r day).1).httpStatus = 201 ∧
    (ingest env (ingest env st cid k p r day).2 cid k p' r' day').1 = .duplicate ∧
    ((ingest env (ingest env st cid k p r day).2 cid k p' r' day').1).httpStatus = 200 ∧
    (ingest env (ingest env st cid k p r day).2 cid k p' r' day').2
      = (ingest env st cid k p r day).2 ∧
    ((((ingest env st cid k p r day).2).events.filter
        (fun e => e.customerId = cid ∧ e.idempotencyKey = k)).length = 1) := by
  obtain ⟨hev, hagg, ht2⟩ := ingest_accepted_state env st cid k p r day hp hr ht hnew
  have hdup2 : eventStored (ingest env st cid k p r day).2 cid k = true := by
    rw [eventStored_congr { st with events := st.events ++ [⟨cid, k, p, r, day⟩] } hev]
    exact eventStored_append_self st cid k p r day
  have h1 := ingest_accepted env st cid k p r day hp hr ht hnew
  have h2 := ingest_duplicate env (ingest env st cid k p r day).2 cid k p' r' day'
    hp' hr' ht2 hdup2
  refine ⟨?_, ?_, ?_, ?_, ?_, ?_⟩
  · rw [h1]
  · rw [h1]; rfl
  · rw [h2]
  · rw [h2]; rfl
  · rw [h2]
  · rw [hev, List.filter_append]
    have h0 : st.events.filter (fun e => e.customerId = cid ∧ e.idempotencyKey = k) = [] := by
      rw [List.filter_eq_nil_iff]
      intro a ha
      have := List.any_eq_false.mp hnew a ha
      simpa using this
    rw [h0]
    simp

/-- Witness for C1 at the spec's concrete scenario. -/
theorem ingest_idempotent_witness :
    (ingest envA stW "t1" "k1" 20 150 0).1 = .created 0 ∧
    (ingest envA (ingest envA stW "t1" "k1" 20 150 0).2 "t1" "k1" 20 150 0).1
      = .duplicate := by
  have h := ingest_idempotent envA stW "t1" "k1" 20 150 0 20 150 0
    (by decide) (by decide) (by decide) (by decide) rfl rfl
  exact ⟨h.1, h.2.2.1⟩

/-! ## C2: aggregate correctness -/

theorem foldBump_some (items : List IngestItem) (a : Agg) :
    items.foldl (fun acc it => some (bumpAgg acc it.pages it.rows)) (some a)
      = some ⟨a.pagesSpent + (items.map IngestItem.pages).sum,
              a.rowsUsed + (items.map IngestItem.rows).sum,
              a.eventCount + (items.length : Int)⟩ := by
  induction items generalizing a with
  | nil => simp
  | cons it rest ih =>
      rw [List.foldl_cons]
      have hstep : bumpAgg (some a) it.pages it.rows
          = (⟨a.pagesSpent + it.pages, a.rowsUsed + it.rows, a.eventCount + 1⟩ : Agg) := rfl
      rw [hstep, ih]
      simp only [List.map_cons, List.sum_cons, List.length_cons, Option.some.injEq, Agg.mk.injEq]
      refine ⟨by omega, by omega, by push_cast; omega⟩

theorem ingestAll_lookup (env : Env) (cid : String) (day : Int)
    (items : List IngestItem) (st : St)
    (ht : (findTenant st cid).isSome = true)
    (hvalid : ∀ it ∈ items, ¬ it.pages < 0 ∧ ¬ it.rows < 0)
    (hfresh : ∀ it ∈ items, eventStored st cid it.key = false)
    (hnodup : (items.map IngestItem.key).Nodup) :
    lookupAgg (ingestAll env cid day items st) cid day
      = items.foldl (fun acc it => some (bumpAgg acc it.pages it.rows))
          (lookupAgg st cid day) := by
  induction items generalizing st with
  | nil => rfl
  | cons it rest ih =>
      have hv := hvalid it (List.mem_cons_self it rest)
      have hf := hfresh it (List.mem_cons_self it rest)
      obtain ⟨hev, hagg, ht2⟩ := ingest_accepted_state env st cid it.key it.pages it.rows day
        hv.1 hv.2 ht hf
      have hstep : ingestAll env cid day (it :: rest) st
          = ingestAll env cid day rest (ingest env st cid it.key it.pages it.rows day).2 := by
        simp [ingestAll]
      rw [hstep]
      have hfresh2 : ∀ it2 ∈ rest,
          eventStored (ingest env st cid it.key it.pages it.rows day).2 cid it2.key
            = false := by
        intro it2 hmem
        rw [eventStored_congr
          { st with events := st.events ++ [⟨cid, it.key, it.pages, it.rows, day⟩] }
          hev]
        rw [eventStored_append_other st cid it.key it2.key it.pages it.rows day ?hk]
        case hk =>
          intro hkk
          apply (List.nodup_cons.mp hnodup).1
          rw [hkk]
          exact List.mem_map_of_mem IngestItem.key hmem
        exact hfresh it2 (List.mem_cons_of_mem it hmem)
      have hvalid2 : ∀ it2 ∈ rest, ¬ it2.pages < 0 ∧ ¬ it2.rows < 0 :=
        fun it2 hm => hvalid it2 (List.mem_cons_of_mem it hm)
      have hnodup2 : (rest.map IngestItem.key).Nodup := (List.nodup_cons.mp hnodup).2
      rw [ih _ ht2 hvalid2 hfresh2 hnodup2, hagg, List.foldl_cons]

/-- C2: after any sequence of N accepted (valid, fresh, pairwise-distinct
keys) ingestions for one tenant on one day, starting with no aggregate row
for that day, the row holds the elementwise sums of pagesSpent and rowsUsed
and eventCount N; the base case of the induction is the creation of the row
with the first event's values and count 1. -/
theorem aggregate_correctness (env : Env) (cid : String) (day : Int)
    (items : List IngestItem) (st : St)
    (ht : (findTenant st cid).isSome = true)
    (hvalid : ∀ it ∈ items, ¬ it.pages < 0 ∧ ¬ it.rows < 0)
    (hfresh : ∀ it ∈ items, eventStored st cid it.key = false)
    (hnodup : (items.map IngestItem.key).Nodup)
    (hinit : lookupAgg st cid day = none)
    (hne : items ≠ []) :
    lookupAgg (ingestAll env cid day items st) cid day
      = some ⟨(items.map IngestItem.pages).sum, (items.map IngestItem.rows).sum,
              (items.length : Int)⟩ := by
  rw [ingestAll_lookup env cid day items st ht hvalid hfresh hnodup, hinit]
  cases items with
  | nil => exact absurd rfl hne
  | cons it rest =>
      rw [List.foldl_cons]
      have hstep : bumpAgg none it.pages it.rows = (⟨it.pages, it.rows, 1⟩ : Agg) := rfl
      rw [hstep, foldBump_some]
      simp only [List.map_cons, List.sum_cons, List.length_cons, Option.some.injEq, Agg.mk.injEq]
      refine ⟨trivial, trivial, by push_cast; omega⟩

/-- Witness for C2: two accepted events of 20/150 and 10/5 pages/rows. -/
theorem aggregate_correctness_witness :
    lookupAgg (ingestAll envA "t1" 0 [⟨"k1", 20, 150⟩, ⟨"k2", 10, 5⟩] stW) "t1" 0
      = some ⟨30, 155, 2⟩ := by
  have h := aggregate_correctness envA "t1" 0 [⟨"k1", 20, 150⟩, ⟨"k2", 10, 5⟩] stW
    rfl (by decide) (by decide) (by decide) rfl (by decide)
  exact h.trans (by decide)

/-! ## C3: pause threshold -/

/-- C3: for a tenant whose period has not rolled over, checkAndPauseIfNeeded
triggers the pause transition exactly when current-period usage has reached
either total limit (base + add-on, reaching the limit exactly counts as
exceeded); a tenant that is already paused is never pause-transitioned
(the pause loop is not even invoked). -/
theorem checkAndPause_threshold (env : Env) (st : St) (tid : String) (t : Tenant) (d : Int)
    (hm : st.migrated = true)
    (ht : findTenant st tid = some t)
    (hlast : t.lastResetAt = some d)
    (hcur : ¬ d < env.expectedResetDay) :
    (t.scenariosPaused = false →
      ((checkAndPauseIfNeeded env st tid).1 = true ↔
        (t.pagesLimit.getD 5000 + t.addonPagesLimit.getD 0
            ≤ (getCurrentPeriodUsage st tid d).1 ∨
         t.rowsLimit.getD 5000 + t.addonRowsLimit.getD 0
            ≤ (getCurrentPeriodUsage st tid d).2))) ∧
    (t.scenariosPaused = true →
      (checkAndPauseIfNeeded env st tid).1 = false ∧
      ((checkAndPauseIfNeeded env st tid).2).pauseAllCalls = st.pauseAllCalls) := by
  have hB : findTenant { st with limitChecks := st.limitChecks + 1 } tid = some t := ht
  have hreset := applyReset_noop env { st with limitChecks := st.limitChecks + 1 } tid t d
    hB hlast hcur
  simp only [checkAndPauseIfNeeded]
  rw [if_neg (by simp [hm])]
  rw [hreset]
  simp only [hB]
  simp only [periodStartOf, hlast]
  have hu : getCurrentPeriodUsage { st with limitChecks := st.limitChecks + 1 } tid d
      = getCurrentPeriodUsage st tid d := rfl
  rw [hu]
  constructor
  · intro hp
    by_cases hc : (t.pagesLimit.getD 5000 + t.addonPagesLimit.getD 0
          ≤ (getCurrentPeriodUsage st tid d).1 ∨
        t.rowsLimit.getD 5000 + t.addonRowsLimit.getD 0
          ≤ (getCurrentPeriodUsage st tid d).2)
    · simp [hp, hc]
    · simp [hp, hc]
  · intro hp
    simp [hp]

/-- Witness for C3: base limit 5000 with no add-on — usage 5000 pauses,
usage 4999 does not. -/
theorem checkAndPause_threshold_witness :
    (checkAndPauseIfNeeded envA stA5000 "t1").1 = true ∧
    (checkAndPauseIfNeeded envA stA4999 "t1").1 = false := by
  constructor
  · exact ((checkAndPause_threshold envA stA5000 "t1" tA 0 rfl rfl rfl
      (by decide)).1 rfl).mpr (by decide)
  · have h := (checkAndPause_threshold envA stA4999 "t1" tA 0 rfl rfl rfl
      (by decide)).1 rfl
    cases hb : (checkAndPauseIfNeeded envA stA4999 "t1").1
    · rfl
    · exact absurd (h.mp hb) (by decide)

/-! ## C4: partial external failure -/

/-- C4: both loop operations visit every scenario (one failure never aborts
the loop: succeeded + failed covers the whole list), return the partition
counts, and write the paused flag only when at least one per-scenario call
succeeded — on zero successes the tenant table is untouched. -/
theorem pause_resume_counts (env : Env) (st : St) (tid : String) (t : Tenant) (key : String)
    (hm : st.migrated = true)
    (ht : findTenant st tid = some t)
    (hk : t.makeApiKey = some key) :
    ((pauseAllScenarios env st tid).1.1
        = ((env.scenariosOf tid).filter (fun s => env.stopOk s.id)).length ∧
     (pauseAllScenarios env st tid).1.2
        = ((env.scenariosOf tid).filter (fun s => ! env.stopOk s.id)).length ∧
     (pauseAllScenarios env st tid).1.1 + (pauseAllScenarios env st tid).1.2
        = (env.scenariosOf tid).length ∧
     (0 < (pauseAllScenarios env st tid).1.1 →
        findTenant (pauseAllScenarios env st tid).2 tid
          = some { t with scenariosPaused := true }) ∧
     ((pauseAllScenarios env st tid).1.1 = 0 →
        ((pauseAllScenarios env st tid).2).tenants = st.tenants)) ∧
    ((resumeAllScenarios env st tid).1.1
        = ((env.scenariosOf tid).filter (fun s => env.startOk s.id)).length ∧
     (resumeAllScenarios env st tid).1.2
        = ((env.scenariosOf tid).filter (fun s => ! env.startOk s.id)).length ∧
     (resumeAllScenarios env st tid).1.1 + (resumeAllScenarios env st tid).1.2
        = (env.scenariosOf tid).length ∧
     (0 < (resumeAllScenarios env st tid).1.1 →
        findTenant (resumeAllScenarios env st tid).2 tid
          = some { t with scenariosPaused := false }) ∧
     ((resumeAllScenarios env st tid).1.1 = 0 →
        ((resumeAllScenarios env st tid).2).tenants = st.tenants)) := by
  have hB : findTenant { st with pauseAllCalls := st.pauseAllCalls + 1 } tid = some t := ht
  have hB' : findTenant { st with resumeAllCalls := st.resumeAllCalls + 1 } tid = some t := ht
  have hfetch : fetchScenarios env { st with pauseAllCalls := st.pauseAllCalls + 1 } tid
      = env.scenariosOf tid := by
    simp [fetchScenarios, hB, hk]
  have hfetch' : fetchScenarios env { st with resumeAllCalls := st.resumeAllCalls + 1 } tid
      = env.scenariosOf tid := by
    simp [fetchScenarios, hB', hk]
  have hpartition : ∀ ok : String → Bool, ∀ l : List Scenario,
      (l.filter (fun s => ok s.id)).length + (l.filter (fun s => ! ok s.id)).length
        = l.length := by
    intro ok l
    induction l with
    | nil => rfl
    | cons s rest ih => cases h : ok s.id <;> simp [h] <;> omega
  constructor
  · simp only [pauseAllScenarios, hB, hk, hfetch, scenarioLoop_counts]
    refine ⟨trivial, trivial, hpartition env.stopOk (env.scenariosOf tid), ?_, ?_⟩
    · intro hpos
      rw [if_pos hpos, if_pos (by exact hm)]
      rw [findTenant_updateTenant_self, hB]
      simp [hk]
    · intro h0
      rw [if_neg (by omega)]
  · simp only [resumeAllScenarios, hB', hk, hfetch', scenarioLoop_counts]
    refine ⟨trivial, trivial, hpartition env.startOk (env.scenariosOf tid), ?_, ?_⟩
    · intro hpos
      rw [if_pos hpos, if_pos (by exact hm)]
      rw [findTenant_updateTenant_self, hB']
      simp [hk]
    · intro h0
      rw [if_neg (by omega)]

/-- Witness for C4: three scenarios with one failing stop give counts
(2, 1) and persist the flag; all three failing leave the table untouched. -/
theorem pause_resume_counts_witness :
    (pauseAllScenarios envC stC "t1").1.1 = 2 ∧
    (pauseAllScenarios envC stC "t1").1.2 = 1 ∧
    findTenant (pauseAllScenarios envC stC "t1").2 "t1"
      = some { tA with scenariosPaused := true } ∧
    ((pauseAllScenarios envF stC "t1").2).tenants = stC.tenants := by
  have h := (pause_resume_counts envC stC "t1" tA "key" rfl rfl rfl).1
  have hf := (pause_resume_counts envF stC "t1" tA "key" rfl rfl rfl).1
  have e1 : (pauseAllScenarios envC stC "t1").1.1 = 2 := by rw [h.1]; rfl
  refine ⟨e1, ?_, ?_, ?_⟩
  · rw [h.2.1]; rfl
  · exact h.2.2.2.1 (by rw [e1]; decide)
  · exact hf.2.2.2.2 (by rw [hf.1]; rfl)

/-! ## C5: monthly reset idempotence -/

/-- A successful reset implies the schema is migrated, the tenant exists
and the reset was due. -/
theorem applyReset_applied_inv (env : Env) (st : St) (tid : String)
    (happlied : (applyMonthlyResetIfNeeded env st tid).1 = true) :
    st.migrated = true ∧ ∃ t, findTenant st tid = some t ∧
      (t.lastResetAt.isNone = true ∨ t.lastResetAt.getD 0 < env.expectedResetDay) := by
  by_cases hm : st.migrated = true
  · rcases hft : findTenant st tid with _ | t
    · exfalso
      simp [applyMonthlyResetIfNeeded, hm, hft] at happlied
    · refine ⟨hm, t, rfl, ?_⟩
      by_cases hnr : (t.lastResetAt.isNone = true ∨ t.lastResetAt.getD 0 < env.expectedResetDay)
      · exact hnr
      · exfalso
        have hcond : ¬ t.lastResetAt = none ∧ env.expectedResetDay ≤ t.lastResetAt.getD 0 := by
          constructor
          · intro h
            exact hnr (Or.inl (by simp [h]))
          · by_contra h
            exact hnr (Or.inr (by omega))
        simp [applyMonthlyResetIfNeeded, hm, hft, hcond.1, hcond.2] at happlied
  · exfalso
    simp [applyMonthlyResetIfNeeded, hm] at happlied

/-- After a due reset the stored row carries lastResetAt = expectedReset. -/
theorem applyReset_applied (env : Env) (st : St) (tid : String) (t : Tenant)
    (hm : st.migrated = true)
    (hft : findTenant st tid = some t)
    (hnr : t.lastResetAt.isNone = true ∨ t.lastResetAt.getD 0 < env.expectedResetDay) :
    ∃ t2, findTenant (applyMonthlyResetIfNeeded env st tid).2 tid = some t2 ∧
      t2.lastResetAt = some env.expectedResetDay := by
  by_cases hA : t.subscriptionActive = true ∧ t.scenariosPaused = true
  · have hs : (applyMonthlyResetIfNeeded env st tid).2
        = (resumeAllScenarios env
            (updateTenant st tid (fun tt =>
              { tt with addonPagesLimit := some 0, addonRowsLimit := some 0,
                        lastResetAt := some env.expectedResetDay,
                        scenariosPaused := false }))
            tid).2 := by
      simp only [applyMonthlyResetIfNeeded, hft]
      rw [if_neg (by simp [hm])]
      rw [if_neg (not_not_intro hnr)]
      simp only [if_pos hA]
    rw [hs]
    rcases findTenant_resumeAll env
        (updateTenant st tid (fun tt =>
          { tt with addonPagesLimit := some 0, addonRowsLimit := some 0,
                    lastResetAt := some env.expectedResetDay,
                    scenariosPaused := false }))
        tid with h | h <;>
      rw [h, findTenant_updateTenant_self, hft] <;> exact ⟨_, rfl, rfl⟩
  · have hs : (applyMonthlyResetIfNeeded env st tid).2
        = updateTenant st tid (fun tt =>
            { tt with addonPagesLimit := some 0, addonRowsLimit := some 0,
                      lastResetAt := some env.expectedResetDay }) := by
      simp only [applyMonthlyResetIfNeeded, hft]
      rw [if_neg (by simp [hm])]
      rw [if_neg (not_not_intro hnr)]
      simp only [if_neg hA]
    rw [hs, findTenant_updateTenant_self, hft]
    exact ⟨_, rfl, rfl⟩

/-- C5: after one successful application of the monthly reset, every
further call in the same billing period returns false and leaves the state
— lastResetAt, the add-on limits, and the external-resume call counter —
untouched. -/
theorem monthly_reset_idempotent (env : Env) (st : St) (tid : String)
    (happlied : (applyMonthlyResetIfNeeded env st tid).1 = true) :
    applyMonthlyResetIfNeeded env (applyMonthlyResetIfNeeded env st tid).2 tid
      = (false, (applyMonthlyResetIfNeeded env st tid).2) ∧
    ((applyMonthlyResetIfNeeded env (applyMonthlyResetIfNeeded env st tid).2 tid).2).resumeAllCalls
      = ((applyMonthlyResetIfNeeded env st tid).2).resumeAllCalls := by
  obtain ⟨hm, t, hft, hnr⟩ := applyReset_applied_inv env st tid happlied
  obtain ⟨t2, hft2, hlast2⟩ := applyReset_applied env st tid t hm hft hnr
  have h := applyReset_noop env (applyMonthlyResetIfNeeded env st tid).2 tid t2
    env.expectedResetDay hft2 hlast2 (by omega)
  exact ⟨h, by rw [h]⟩

/-- Witness for C5 on a store whose period rolled over at day 5. -/
theorem monthly_reset_idempotent_witness :
    applyMonthlyResetIfNeeded envE (applyMonthlyResetIfNeeded envE stE0 "t1").2 "t1"
      = (false, (applyMonthlyResetIfNeeded envE stE0 "t1").2) := by
  exact (monthly_reset_idempotent envE stE0 "t1" (by decide)).1

/-! ## C6: resume after add-on -/

/-- C6: for a currently paused tenant, checkAndResumeIfPossible performs the
resume transition exactly when recomputed current-period usage is strictly
under both total (base + add-on) limits; for a tenant that is not paused it
returns false and leaves the state untouched. -/
theorem checkAndResume_threshold (env : Env) (st : St) (tid : String) (t : Tenant)
    (hm : st.migrated = true)
    (ht : findTenant st tid = some t) :
    (t.scenariosPaused = true →
      ((checkAndResumeIfPossible env st tid).1 = true ↔
        ((getCurrentPeriodUsage st tid (periodStartOf env t)).1
            < t.pagesLimit.getD 5000 + t.addonPagesLimit.getD 0 ∧
         (getCurrentPeriodUsage st tid (periodStartOf env t)).2
            < t.rowsLimit.getD 5000 + t.addonRowsLimit.getD 0))) ∧
    (t.scenariosPaused = false → checkAndResumeIfPossible env st tid = (false, st)) := by
  simp only [checkAndResumeIfPossible, ht]
  rw [if_neg (by simp [hm])]
  constructor
  · intro hp
    by_cases hc : ((getCurrentPeriodUsage st tid (periodStartOf env t)).1
          < t.pagesLimit.getD 5000 + t.addonPagesLimit.getD 0 ∧
        (getCurrentPeriodUsage st tid (periodStartOf env t)).2
          < t.rowsLimit.getD 5000 + t.addonRowsLimit.getD 0)
    · simp [hp, hc]
    · simp [hp, hc]
  · intro hp
    simp [hp]

/-- Witness for C6: paused at usage 6000 against base 5000, a 2000-page
add-on lifts the total to 7000 and the tenant is resumed. -/
theorem checkAndResume_threshold_witness :
    (checkAndResumeIfPossible envA stB6000 "t1").1 = true := by
  exact ((checkAndResume_threshold envA stB6000 "t1" tB rfl rfl).1 rfl).mpr (by decide)

/-! ## C7: billing-period boundaries -/

/-- C7: getExpectedResetDate returns the 5th of the current month once the
day has reached 5 and the 5th of the previous month before that, rolling
the year down at January; getNextResetDate symmetrically returns the 5th of
the next month (rolling the year up at December) or of the current month. -/
theorem period_boundary (now : SimpleDate)
    (hm0 : 0 ≤ now.month) (hm1 : now.month < 12) :
    (5 ≤ now.day → getExpectedResetDate now = ⟨now.year, now.month, 5⟩) ∧
    (now.day < 5 →
      getExpectedResetDate now =
        if now.month = 0 then ⟨now.year - 1, 11, 5⟩ else ⟨now.year, now.month - 1, 5⟩) ∧
    (5 ≤ now.day →
      getNextResetDate now =
        if now.month = 11 then ⟨now.year + 1, 0, 5⟩ else ⟨now.year, now.month + 1, 5⟩) ∧
    (now.day < 5 → getNextResetDate now = ⟨now.year, now.month, 5⟩) := by
  refine ⟨fun h => ?_, fun h => ?_, fun h => ?_, fun h => ?_⟩
  · simp only [getExpectedResetDate, if_pos h, mkDate, SimpleDate.mk.injEq]
    refine ⟨by omega, by omega, trivial⟩
  · simp only [getExpectedResetDate, if_neg (by omega : ¬ 5 ≤ now.day), mkDate]
    by_cases h0 : now.month = 0
    · simp only [if_pos h0, SimpleDate.mk.injEq]
      refine ⟨by omega, by omega, trivial⟩
    · simp only [if_neg h0, SimpleDate.mk.injEq]
      refine ⟨by omega, by omega, trivial⟩
  · simp only [getNextResetDate, if_pos h, mkDate]
    by_cases h11 : now.month = 11
    · simp only [if_pos h11, SimpleDate.mk.injEq]
      refine ⟨by omega, by omega, trivial⟩
    · simp only [if_neg h11, SimpleDate.mk.injEq]
      refine ⟨by omega, by omega, trivial⟩
  · simp only [getNextResetDate, if_neg (by omega : ¬ 5 ≤ now.day), mkDate,
      SimpleDate.mk.injEq]
    refine ⟨by omega, by omega, trivial⟩

/-- Witness for C7: January 3rd, a 4th, a 5th, and a December rollover. -/
theorem period_boundary_witness :
    getExpectedResetDate ⟨2026, 0, 3⟩ = ⟨2025, 11, 5⟩ ∧
    getExpectedResetDate ⟨2026, 3, 4⟩ = ⟨2026, 2, 5⟩ ∧
    getExpectedResetDate ⟨2026, 3, 5⟩ = ⟨2026, 3, 5⟩ ∧
    getNextResetDate ⟨2026, 11, 9⟩ = ⟨2027, 0, 5⟩ := by
  refine ⟨?_, ?_, ?_, ?_⟩
  · have h := (period_boundary ⟨2026, 0, 3⟩ (by decide) (by decide)).2.1 (by decide)
    simpa using h
  · have h := (period_boundary ⟨2026, 3, 4⟩ (by decide) (by decide)).2.1 (by decide)
    simpa using h
  · exact (period_boundary ⟨2026, 3, 5⟩ (by decide) (by decide)).1 (by decide)
  · have h := (period_boundary ⟨2026, 11, 9⟩ (by decide) (by decide)).2.2.1 (by decide)
    simpa using h

/-! ## C8: billing webhook add-on application -/

theorem limits_resumeAll (env : Env) (st : St) (tid : String) :
    (findTenant (resumeAllScenarios env st tid).2 tid).map Tenant.limits
      = (findTenant st tid).map Tenant.limits := by
  rcases findTenant_resumeAll env st tid with h | h <;> rw [h]
  cases findTenant st tid <;> rfl

theorem limits_checkResume (env : Env) (st : St) (tid : String) :
    (findTenant (checkAndResumeIfPossible env st tid).2 tid).map Tenant.limits
      = (findTenant st tid).map Tenant.limits := by
  rcases checkAndResumeIfPossible_snd env st tid with h | h <;> rw [h]
  exact limits_resumeAll env st tid

/-- C8 (amended): on a verified checkout.session.completed event whose
metadata carries a truthy tenantId, a truthy addonType and a positive
addonQuantity, the handler increments addonPagesLimit when the addonType is
"pages" and addonRowsLimit for EVERY other truthy addonType (the route's
else branch — this is where the original claim's "malformed metadata is
ignored" fails), leaves the other three limit columns unchanged,
acknowledges receipt and invokes checkAndResumeIfPossible; an event of
another type, or with a falsy tenantId or addonType, or with a
non-positive quantity, acknowledges receipt and changes nothing. -/
theorem stripeWebhook_addon (env : Env) (st : St) (ev : StripeEvent)
    (t : Tenant) (tid aty : String) (qty : Int) :
    (ev.type = "checkout.session.completed" → ev.tenantId = some tid → ¬ tid = "" →
     ev.addonType = some aty → ¬ aty = "" → ev.addonQuantity = some qty → 0 < qty →
     findTenant st tid = some t →
      (stripeWebhook env st ev).1 = true ∧
      (stripeWebhook env st ev).2.2 = true ∧
      (aty = "pages" →
        (findTenant (stripeWebhook env st ev).2.1 tid).map Tenant.limits
          = some (t.pagesLimit, t.rowsLimit,
              some (t.addonPagesLimit.getD 0 + qty), t.addonRowsLimit)) ∧
      (¬ aty = "pages" →
        (findTenant (stripeWebhook env st ev).2.1 tid).map Tenant.limits
          = some (t.pagesLimit, t.rowsLimit, t.addonPagesLimit,
              some (t.addonRowsLimit.getD 0 + qty)))) ∧
    ((¬ ev.type = "checkout.session.completed" ∨ truthyS ev.tenantId = false ∨
        truthyS ev.addonType = false ∨ ev.addonQuantity.getD 0 ≤ 0) →
      stripeWebhook env st ev = (true, st, false)) := by
  constructor
  · intro hty htid htide haty hatye hqty hqtyp hft
    have htr1 : truthyS ev.tenantId = true := by simp [truthyS, htid, htide]
    have htr2 : truthyS ev.addonType = true := by simp [truthyS, haty, hatye]
    simp only [stripeWebhook, hqty, Option.getD_some]
    rw [if_pos hty, if_pos ⟨htr1, htr2, hqtyp⟩]
    simp only [htid, Option.getD_some]
    refine ⟨trivial, trivial, ?_, ?_⟩
    · intro hpag
      rw [if_pos (by rw [haty, hpag])]
      rw [limits_checkResume, findTenant_updateTenant_self, hft]
      rfl
    · intro hpag
      rw [if_neg (by rw [haty]; simp [hpag])]
      rw [limits_checkResume, findTenant_updateTenant_self, hft]
      rfl
  · intro h
    by_cases hty : ev.type = "checkout.session.completed"
    · simp only [stripeWebhook]
      rw [if_pos hty, if_neg ?hc]
      case hc =>
        rcases h with h | h | h | h
        · exact absurd hty h
        · intro hc
          rw [h] at hc
          exact absurd hc.1 (by simp)
        · intro hc
          rw [h] at hc
          exact absurd hc.2.1 (by simp)
        · intro hc
          exact absurd hc.2.2 (by omega)
    · simp only [stripeWebhook]
      rw [if_neg hty]

/-- Counterexample for C8 as frozen: a checkout.session.completed event
whose addonType "gift" is outside {pages, rows} is malformed in the
claim's sense, yet tenant state changes — addonRowsLimit gains 500. -/
theorem stripeWebhook_malformed_counterexample :
    (¬ ((⟨"checkout.session.completed", some "t1", some "gift", some 500⟩
          : StripeEvent).addonType = some "pages" ∨
        (⟨"checkout.session.completed", some "t1", some "gift", some 500⟩
          : StripeEvent).addonType = some "rows")) ∧
    ¬ (stripeWebhook envA stW
        ⟨"checkout.session.completed", some "t1", some "gift", some 500⟩).2.1 = stW := by
  exact ⟨by decide, by decide⟩

/-- Witness for C8: a well-formed pages purchase of 1000 lands on
addonPagesLimit, and a non-checkout event is acknowledged unchanged. -/
theorem stripeWebhook_addon_witness :
    (stripeWebhook envA stW
        ⟨"checkout.session.completed", some "t1", some "pages", some 1000⟩).1 = true ∧
    (findTenant (stripeWebhook envA stW
        ⟨"checkout.session.completed", some "t1", some "pages", some 1000⟩).2.1
        "t1").map Tenant.limits
      = some (some 5000, some 5000, some 1000, some 0) ∧
    stripeWebhook envA stW ⟨"other", none, none, none⟩ = (true, stW, false) := by
  have h := (stripeWebhook_addon envA stW
    ⟨"checkout.session.completed", some "t1", some "pages", some 1000⟩
    tW "t1" "pages" 1000).1 rfl rfl (by decide) rfl (by decide) rfl (by decide) rfl
  refine ⟨h.1, ?_, ?_⟩
  · exact (h.2.2.1 rfl).trans (by decide)
  · exact (stripeWebhook_addon envA stW ⟨"other", none, none, none⟩
      tW "t1" "x" 0).2 (Or.inl (by decide))

/-! ## C9: graceful degradation on store errors -/

/-- C9: with the quota columns missing (schema migration pending), each
engine entry point catches the store error and returns false without
touching the store, and an ingestion request that fires the limit check
still succeeds with 201 created. -/
theorem degraded_schema (env : Env) (st : St) (tid cid k : String) (p r day : Int)
    (hm : st.migrated = false)
    (hp : ¬ p < 0) (hr : ¬ r < 0)
    (ht : (findTenant st cid).isSome = true)
    (hnew : eventStored st cid k = false) :
    checkAndPauseIfNeeded env st tid
      = (false, { st with limitChecks := st.limitChecks + 1 }) ∧
    applyMonthlyResetIfNeeded env st tid = (false, st) ∧
    checkAndResumeIfPossible env st tid = (false, st) ∧
    (ingest env st cid k p r day).1 = .created st.events.length ∧
    ((ingest env st cid k p r day).1).httpStatus = 201 := by
  have h1 : checkAndPauseIfNeeded env st tid
      = (false, { st with limitChecks := st.limitChecks + 1 }) := by
    simp only [checkAndPauseIfNeeded]
    rw [if_pos (by simp [hm])]
  have h2 : applyMonthlyResetIfNeeded env st tid = (false, st) := by
    simp only [applyMonthlyResetIfNeeded]
    rw [if_pos (by simp [hm])]
  have h3 : checkAndResumeIfPossible env st tid = (false, st) := by
    simp only [checkAndResumeIfPossible]
    rw [if_pos (by simp [hm])]
  have h4 := ingest_accepted env st cid k p r day hp hr ht hnew
  exact ⟨h1, h2, h3, by rw [h4], by rw [h4]; rfl⟩

/-- Witness for C9 on the store whose migration is pending. -/
theorem degraded_schema_witness :
    checkAndPauseIfNeeded envA stD "t1" = (false, { stD with limitChecks := 1 }) ∧
    applyMonthlyResetIfNeeded envA stD "t1" = (false, stD) ∧
    (ingest envA stD "t1" "k1" 20 150 0).1 = .created 0 := by
  have h := degraded_schema envA stD "t1" "t1" "k1" 20 150 0 rfl
    (by decide) (by decide) rfl rfl
  exact ⟨h.1, h.2.1, h.2.2.2.1⟩

/-! ## C10: usage-status limit migration -/

theorem baseLimits_resumeAll (env : Env) (st : St) (tid : String) :
    (findTenant (resumeAllScenarios env st tid).2 tid).map
        (fun t => (t.pagesLimit, t.rowsLimit))
      = (findTenant st tid).map (fun t => (t.pagesLimit, t.rowsLimit)) := by
  rcases findTenant_resumeAll env st tid with h | h <;> rw [h]
  cases findTenant st tid <;> rfl

theorem baseLimits_applyReset (env : Env) (st : St) (tid : String) :
    (findTenant (applyMonthlyResetIfNeeded env st tid).2 tid).map
        (fun t => (t.pagesLimit, t.rowsLimit))
      = (findTenant st tid).map (fun t => (t.pagesLimit, t.rowsLimit)) := by
  rcases applyMonthlyResetIfNeeded_snd env st tid with h | h | h
  · rw [h]
  · rw [h, findTenant_updateTenant_self]
    cases findTenant st tid <;> rfl
  · rw [h, baseLimits_resumeAll, findTenant_updateTenant_self]
    cases findTenant st tid <;> rfl

/-- C10: the usage-status route's one-time migration — a tenant with both
stored base limits at most 1000 is upgraded to 5000/5000 before the
response is computed, and the response reports the upgraded limits; a
tenant with either base limit above 1000 keeps both limits unchanged. -/
theorem usageStatus_limit_upgrade (env : Env) (st : St) (tid : String) (t : Tenant)
    (pl rl : Int)
    (hm : st.migrated = true)
    (ht : findTenant st tid = some t)
    (hpl : t.pagesLimit = some pl) (hrl : t.rowsLimit = some rl) :
    ((pl ≤ 1000 ∧ rl ≤ 1000) →
      ((usageStatus env st tid).1.map (fun resp => (resp.pagesLimit, resp.rowsLimit))
          = some (5000, 5000) ∧
       (findTenant (usageStatus env st tid).2 tid).map
           (fun t => (t.pagesLimit, t.rowsLimit))
         = some (some 5000, some 5000))) ∧
    ((1000 < pl ∨ 1000 < rl) →
      ((usageStatus env st tid).1.map (fun resp => (resp.pagesLimit, resp.rowsLimit))
          = some (pl, rl) ∧
       (findTenant (usageStatus env st tid).2 tid).map
           (fun t => (t.pagesLimit, t.rowsLimit))
         = some (some pl, some rl))) := by
  have hsu := sameUsage_applyReset env st tid
  have hmig0 : ((applyMonthlyResetIfNeeded env st tid).2).migrated = true := by
    rw [hsu.2.2.1, hm]
  have hbase : (findTenant (applyMonthlyResetIfNeeded env st tid).2 tid).map
      (fun t => (t.pagesLimit, t.rowsLimit)) = some (some pl, some rl) := by
    rw [baseLimits_applyReset, ht]
    simp [hpl, hrl]
  rcases hft0 : findTenant (applyMonthlyResetIfNeeded env st tid).2 tid with _ | t0
  · rw [hft0] at hbase
    simp at hbase
  · rw [hft0] at hbase
    simp only [Option.map_some'] at hbase
    have h' := Option.some.inj hbase
    rw [Prod.mk.injEq] at h'
    obtain ⟨hpl0, hrl0⟩ := h'
    simp only [usageStatus, hft0]
    rw [if_neg (by simp [hmig0])]
    constructor
    · intro hc
      have hcond : (t0.pagesLimit.getD 0 ≤ 1000 ∧ t0.rowsLimit.getD 0 ≤ 1000) := by
        rw [hpl0, hrl0]
        simpa using hc
      simp only [if_pos hcond]
      constructor
      · rfl
      · rw [findTenant_updateTenant_self, hft0]
        rfl
    · intro hc
      have hcond : ¬ (t0.pagesLimit.getD 0 ≤ 1000 ∧ t0.rowsLimit.getD 0 ≤ 1000) := by
        rw [hpl0, hrl0]
        simp only [Option.getD_some]
        omega
      simp only [if_neg hcond]
      constructor
      · simp [hpl0, hrl0]
      · rw [hft0]
        simp [hpl0, hrl0]

/-- Witness for C10: the 1000/1000 tenant is upgraded and reported at
5000/5000; a tenant above 1000 keeps its stored limits. -/
theorem usageStatus_limit_upgrade_witness :
    (findTenant (usageStatus envA stLow "t1").2 "t1").map
        (fun t => (t.pagesLimit, t.rowsLimit)) = some (some 5000, some 5000) ∧
    ((usageStatus envA stLow "t1").1).map (fun resp => (resp.pagesLimit, resp.rowsLimit))
      = some (5000, 5000) ∧
    (findTenant (usageStatus envA stW "t1").2 "t1").map
        (fun t => (t.pagesLimit, t.rowsLimit)) = some (some 5000, some 5000) := by
  have h1 := (usageStatus_limit_upgrade envA stLow "t1" tLow 1000 1000
    rfl rfl rfl rfl).1 (by decide)
  have h2 := (usageStatus_limit_upgrade envA stW "t1" tW 5000 5000
    rfl rfl rfl rfl).2 (by decide)
  exact ⟨h1.2, h1.1, h2.2⟩
